import Mathlib

/-!
# Verification of the Smart-Task-Planner goal-to-plan engine

Shallow embedding of `backend/task_logic.py`: the duration parser
(`parse_goal_duration`), the deterministic decomposition pipeline
(`mock_llm_reasoning`) and the orchestrator (`generate_plan`).

Modelling conventions:
* Calendar instants are Python `date` ordinals (`date.toordinal()`), natural
  numbers in `[1, 3652059]`; `1` is 0001-01-01 and `3652059` is 9999-12-31,
  the bounds of Python's `datetime` range.  Every ordinal in that range is a
  valid ISO-8601 calendar date, and `date.isoformat()` is injective and
  monotone on it, so date strings are compared through their ordinals.
  The engine only ever adds whole days to a fixed reference instant, so the
  time-of-day component of `datetime.utcnow()` is irrelevant after `.date()`
  and the reference instant is modelled as a single ordinal `now`.
* `datetime + timedelta(days=d)` raises `OverflowError` when `d` exceeds
  `timedelta`'s bound (999999999 days) or the resulting instant leaves the
  `datetime` range; partial operations are `Option`-valued, `none` standing
  for a raised exception.
* Strings are modelled with ASCII semantics: the regex classes d and s,
  `str.lower`, `str.strip` are taken on their ASCII fragment, which covers
  every string the specification and the tests speak about.
-/

namespace TaskPlanner

/-- ASCII decimal digit: models the regex class `d-class` on ASCII input. -/
def isDig (c : Char) : Bool := 48 ≤ c.toNat && c.toNat ≤ 57

/-- ASCII whitespace (space, tab, newline, carriage return, vertical tab,
form feed): models the regex class `s-class` on ASCII input. -/
def isWs (c : Char) : Bool :=
  c = ' ' || c = '\t' || c = '\n' || c.toNat = 13 || c.toNat = 11 || c.toNat = 12

/-- Literal occurrence test: `matchLit pat l` holds when `pat` occurs literally at the front of `l`. -/
def matchLit : List Char → List Char → Bool
  | [], _ => true
  | _ :: _, [] => false
  | a :: pat, b :: l => a == b && matchLit pat l

/-- Substring test: `hasSub pat l` holds when `pat` occurs somewhere in `l`; models Python `pat in l`. -/
def hasSub : List Char → List Char → Bool
  | pat, [] => matchLit pat []
  | pat, c :: l => matchLit pat (c :: l) || hasSub pat l

/-- Python substring test `needle in hay` on strings. -/
def strHas (needle hay : String) : Bool := hasSub needle.toList hay.toList

/-- Lower-casing of one character (`str.lower`, ASCII fragment). -/
def lowerChar (c : Char) : Char :=
  if 65 ≤ c.toNat ∧ c.toNat ≤ 90 then Char.ofNat (c.toNat + 32) else c

/-- Lower-cased goal text as a character list (ASCII model of `goal.lower()`). -/
def lowerStr (s : String) : List Char := s.toList.map lowerChar

/-- Decimal value of a digit run (`int(m.group(1))`), accumulator style. -/
def digitsVal : List Char → Nat → Nat
  | [], acc => acc
  | c :: l, acc => digitsVal l (acc * 10 + (c.toNat - 48))

/-- The unit alternation `(day|days|week|weeks|month|months)` of the duration
regex: the first alternative, in regex order, matching at the front of `l`.
The plural branches are kept for fidelity to the regex even though the
singular alternative that precedes each of them matches first. -/
def firstAlt (l : List Char) : Option (List Char) :=
  if matchLit "day".toList l then some "day".toList
  else if matchLit "days".toList l then some "days".toList
  else if matchLit "week".toList l then some "week".toList
  else if matchLit "weeks".toList l then some "weeks".toList
  else if matchLit "month".toList l then some "month".toList
  else if matchLit "months".toList l then some "months".toList
  else none

/-- Match of the duration regex anchored at the front of `l`: a non-empty
maximal digit run, optional whitespace, then a unit alternative.  Greedy
matching needs no backtracking here: shortening the digit run or the
whitespace run leaves a digit or a whitespace character where the unit
alternation, whose alternatives all start with a letter, must match. -/
def matchAt (l : List Char) : Option (Nat × List Char) :=
  let digits := l.takeWhile isDig
  if digits.isEmpty then none
  else
    let rest := (l.drop digits.length).dropWhile isWs
    match firstAlt rest with
    | some u => some (digitsVal digits 0, u)
    | none => none

/-- Model of `re.search` for the duration regex: the match anchored at the leftmost
position where one exists, scanning positions left to right. -/
def searchDuration : List Char → Option (Nat × List Char)
  | [] => none
  | c :: l =>
    match matchAt (c :: l) with
    | some r => some r
    | none => searchDuration l

/-- Ordinal of `date.max` (`date.max.toordinal()`): ordinal of 9999-12-31, the last representable
Python date. -/
def maxOrdinal : Nat := 3652059

/-- Value of `timedelta.max.days`: the largest day count a Python `timedelta`
can hold. -/
def maxDeltaDays : Nat := 999999999

/-- Date addition `(d0 + timedelta(days=d)).date()` on ordinals: `none` models the
`OverflowError` raised when `d` exceeds the `timedelta` bound or the result
leaves the `datetime` range. -/
def addDays (now d : Nat) : Option Nat :=
  if d ≤ maxDeltaDays ∧ now + d ≤ maxOrdinal then some (now + d) else none

/-- The duration parser `parse_goal_duration` (task_logic.py:19-41): lower-case the goal, search
for the duration regex; on a match convert the number to days by the unit
(`week` ×7, `month` ×30, otherwise ×1) and return `(days, now + days)`;
otherwise fall back to 14 days when the text contains "launch", "ship" or
"release" and to 30 days when it does not.  `none` models the
`OverflowError` of the deadline computation `now + timedelta(days=days)`. -/
def parse_goal_duration (goal : String) (now : Nat) : Option (Nat × Nat) :=
  let g := lowerStr goal
  match searchDuration g with
  | some (num, unit) =>
    let days :=
      if hasSub "week".toList unit then num * 7
      else if hasSub "month".toList unit then num * 30
      else num
    (addDays now days).map (fun dl => (days, dl))
  | none =>
    let fb :=
      if hasSub "launch".toList g || hasSub "ship".toList g ||
          hasSub "release".toList g then 14
      else 30
    (addDays now fb).map (fun dl => (fb, dl))

/-- One generated task record (task_logic.py:74-80): the five canonical keys,
dates as Python `date` ordinals. -/
structure Task where
  title : String
  description : String
  start_date : Nat
  end_date : Nat
  depends_on : String
  deriving DecidableEq, Repr

/-- Placeholder task used only as the default of `List.getD` in statements. -/
def defTask : Task := { title := "", description := "", start_date := 0, end_date := 0, depends_on := "" }

/-- The fixed phase template (task_logic.py:55-62), in canonical order. -/
def phases : List (String × String) :=
  [("Define scope & success metrics", "Clarify goal, success metrics, target audience, and constraints."),
   ("Design & plan", "Create designs, wireframes or implementation plans."),
   ("Implementation", "Develop core functionality and integrate components."),
   ("Testing & QA", "Test features, fix bugs, and verify performance."),
   ("Deployment & Launch", "Deploy to production and run launch checklist."),
   ("Post-launch monitoring", "Monitor usage, collect feedback, and iterate.")]

/-- Phase selection (task_logic.py:65): `phases if days >= 10 else phases[:4]`. -/
def chosenPhases (days : Nat) : List (String × String) :=
  if 10 ≤ days then phases else phases.take 4

/-- Per-phase day width (task_logic.py:68): `max(1, days // len(chosen))`. -/
def per_task_days (days n : Nat) : Nat := max 1 (days / n)

/-- The timeline loop (task_logic.py:71-80).  `i` is the 1-based loop index
of `enumerate(chosen, start=1)` and `dep` the title of the previous phase
(`""` on the first iteration, matching `"" if i == 1 else chosen[i-2][0]`).
Each iteration computes the two date additions, either of which can raise
`OverflowError` (`none`). -/
def allocLoop (per now : Nat) : List (String × String) → Nat → String → Option (List Task)
  | [], _, _ => some []
  | (t, desc) :: rest, i, dep =>
    (addDays now ((i - 1) * per)).bind fun s =>
      (addDays now (i * per - 1)).bind fun e =>
        (allocLoop per now rest (i + 1) t).bind fun tasks =>
          some ({ title := t, description := desc, start_date := s, end_date := e,
                  depends_on := dep } :: tasks)

/-- Python `list.insert(k, x)`: insert `x` before position `k`,
appending when `k` is past the end. -/
def insertAt : Nat → Task → List Task → List Task
  | 0, x, l => x :: l
  | _ + 1, x, [] => [x]
  | n + 1, x, a :: l => a :: insertAt n x l

/-- The keyword trigger (task_logic.py:83):
`"product" in goal_text.lower() and "marketing" in goal_text.lower()`. -/
def trigger (goal : String) : Bool :=
  hasSub "product".toList (lowerStr goal) && hasSub "marketing".toList (lowerStr goal)

/-- Description of the augmented task (task_logic.py:86). -/
def marketingDesc : String := "Prepare assets, landing page, email sequences and socials."

/-- The deterministic pipeline `mock_llm_reasoning` (task_logic.py:43-91): the deterministic pipeline.
Parse the duration, choose the phase sub-template, allocate the timeline,
then insert the "Marketing prep" task at `len(tasks) - 1` when the keyword
trigger fires.  `none` models a raised `OverflowError`; both calls to
`datetime.utcnow()` (line 25 and line 69) are the same reference instant
`now`. -/
def mock_llm_reasoning (goal : String) (now : Nat) : Option (List Task) :=
  (parse_goal_duration goal now).bind fun p =>
    let days := p.1
    let chosen := chosenPhases days
    let per := per_task_days days chosen.length
    (allocLoop per now chosen 1 "").bind fun tasks =>
      if trigger goal then
        (addDays now per).bind fun ms =>
          (addDays now (per * 2)).bind fun me =>
            some (insertAt (tasks.length - 1)
              { title := "Marketing prep", description := marketingDesc,
                start_date := ms, end_date := me,
                depends_on := (chosen.headD ("", "")).1 } tasks)
      else some tasks

/-- Modelled from the spec's words, not from the code: the duration rule of
section 4.1 — the first regex match `N unit` gives `N`, `N`×7 or `N`×30 days
for unit `day(s)`, `week(s)`, `month(s)`, and without a match the duration is
14 days when the text contains "launch", "ship" or "release" and 30 days
otherwise.  Reference point for the refinement statement of C2. -/
def specDuration (goal : String) : Nat :=
  match searchDuration (lowerStr goal) with
  | some (n, u) =>
    if u = "week".toList ∨ u = "weeks".toList then n * 7
    else if u = "month".toList ∨ u = "months".toList then n * 30
    else n
  | none =>
    if strHas "launch" (String.mk (lowerStr goal)) ∨
        strHas "ship" (String.mk (lowerStr goal)) ∨
        strHas "release" (String.mk (lowerStr goal)) then 14
    else 30

/-- JSON values, as produced by Python `json.loads`: numbers restricted to
integers, which covers every response shape the claims speak about. -/
inductive Json where
  | null : Json
  | bool (b : Bool) : Json
  | num (n : Int) : Json
  | str (s : String) : Json
  | arr (xs : List Json) : Json
  | obj (kvs : List (String × Json)) : Json

/-- The character `"` (written by code to keep quotes out of literals). -/
def chQuote : Char := Char.ofNat 34

/-- The character `\x7b` (opening curly brace). -/
def chLBrace : Char := Char.ofNat 123

/-- The character `\x7d` (closing curly brace). -/
def chRBrace : Char := Char.ofNat 125

/-- The character `[`. -/
def chLBrack : Char := Char.ofNat 91

/-- The character `]`. -/
def chRBrack : Char := Char.ofNat 93

/-- JSON insignificant whitespace (RFC 8259: space, tab, newline, return). -/
def jsonWs (c : Char) : Bool := c = ' ' || c = '\t' || c = '\n' || c.toNat = 13

/-- Drop leading JSON whitespace. -/
def skipJsonWs (l : List Char) : List Char := l.dropWhile jsonWs

/-- Body of a JSON string after its opening quote, up to the closing quote.
Escape sequences are not modelled (no claim needs them). -/
def jStr (l : List Char) : Option (String × List Char) :=
  let s := l.takeWhile (fun c => !(c == chQuote))
  match l.drop s.length with
  | c :: rest => if c = chQuote then some (String.mk s, rest) else none
  | [] => none

mutual

/-- One JSON value at the front of `l` (model of Python `json.loads`'s
recursive-descent core, fuelled to stay structurally recursive). -/
def jVal : Nat → List Char → Option (Json × List Char)
  | 0, _ => none
  | fuel + 1, l =>
    match skipJsonWs l with
    | [] => none
    | c :: rest =>
      if c = chLBrace then
        match skipJsonWs rest with
        | c2 :: rest2 =>
          if c2 = chRBrace then some (.obj [], rest2)
          else jObjItems fuel (c2 :: rest2) []
        | [] => none
      else if c = chLBrack then
        match skipJsonWs rest with
        | c2 :: rest2 =>
          if c2 = chRBrack then some (.arr [], rest2)
          else jArrItems fuel (c2 :: rest2) []
        | [] => none
      else if c = chQuote then
        match jStr rest with
        | some (s, rest2) => some (.str s, rest2)
        | none => none
      else if matchLit "true".toList (c :: rest) then some (.bool true, (c :: rest).drop 4)
      else if matchLit "false".toList (c :: rest) then some (.bool false, (c :: rest).drop 5)
      else if matchLit "null".toList (c :: rest) then some (.null, (c :: rest).drop 4)
      else if c = '-' then
        let ds := rest.takeWhile isDig
        if ds.isEmpty then none
        else some (.num (-(digitsVal ds 0 : Int)), rest.drop ds.length)
      else if isDig c then
        let ds := (c :: rest).takeWhile isDig
        some (.num (digitsVal ds 0 : Int), (c :: rest).drop ds.length)
      else none

/-- Comma-separated members of a non-empty JSON object after `\x7b`. -/
def jObjItems : Nat → List Char → List (String × Json) → Option (Json × List Char)
  | 0, _, _ => none
  | fuel + 1, l, acc =>
    match skipJsonWs l with
    | c :: rest =>
      if c = chQuote then
        match jStr rest with
        | some (k, rest2) =>
          match skipJsonWs rest2 with
          | c2 :: rest3 =>
            if c2 = ':' then
              match jVal fuel rest3 with
              | some (v, rest4) =>
                match skipJsonWs rest4 with
                | c3 :: rest5 =>
                  if c3 = ',' then jObjItems fuel rest5 (acc ++ [(k, v)])
                  else if c3 = chRBrace then some (.obj (acc ++ [(k, v)]), rest5)
                  else none
                | [] => none
              | none => none
            else none
          | [] => none
        | none => none
      else none
    | [] => none

/-- Comma-separated elements of a non-empty JSON array after `[`. -/
def jArrItems : Nat → List Char → List Json → Option (Json × List Char)
  | 0, _, _ => none
  | fuel + 1, l, acc =>
    match jVal fuel l with
    | some (v, rest) =>
      match skipJsonWs rest with
      | c :: rest2 =>
        if c = ',' then jArrItems fuel rest2 (acc ++ [v])
        else if c = chRBrack then some (.arr (acc ++ [v]), rest2)
        else none
      | [] => none
    | none => none

end

/-- Model of Python `json.loads`: parse one JSON value and require only
trailing whitespace after it.  The fuel is ample for any input since every
level of nesting consumes characters. -/
def json_loads (s : String) : Option Json :=
  let l := s.toList
  match jVal (2 * l.length + 2) l with
  | some (j, rest) => if (skipJsonWs rest).isEmpty then some j else none
  | none => none

/-- What `generate_plan` hands back to its caller: either the value parsed
from the external reply, returned as-is (task_logic.py:142), or the
deterministic task list, optionally annotated with the `llm_note` debug
field that `setdefault` puts on every task (task_logic.py:146-147). -/
inductive PlanOutput where
  | fromJson (j : Json) : PlanOutput
  | tasks (ts : List Task) (note : Option String) : PlanOutput

/-- The orchestrator `generate_plan` (task_logic.py:126-154).  `key` models the presence of
`OPENAI_API_KEY`; `reply` models the outcome of `await call_openai(...)`,
`none` standing for a raised network/HTTP exception (caught at line 149,
falling back to the plain deterministic plan).  On a reply, `json.loads`
success returns the parsed value unchanged; failure returns the
deterministic plan with `llm_note` set to the first 400 characters of the
reply.  The outer `none` models the deterministic pipeline itself raising
(`OverflowError`), which no handler in this function absorbs on the default
path. -/
def generate_plan (goal : String) (use_openai : Bool) (key : Bool)
    (reply : Option String) (now : Nat) : Option PlanOutput :=
  let g := goal.trim
  if use_openai && key then
    match reply with
    | none => (mock_llm_reasoning g now).map (fun ts => .tasks ts none)
    | some r =>
      match json_loads r with
      | some j => some (.fromJson j)
      | none => (mock_llm_reasoning g now).map (fun ts => .tasks ts (some (String.mk (r.toList.take 400))))
  else (mock_llm_reasoning g now).map (fun ts => .tasks ts none)

/-- Expected allocator output for `days = 3`, `now = 738000` (4 phases,
1 day each); used by concrete witnesses. -/
def wAlloc3 : List Task :=
  [{ title := "Define scope & success metrics",
     description := "Clarify goal, success metrics, target audience, and constraints.",
     start_date := 738000, end_date := 738000, depends_on := "" },
   { title := "Design & plan",
     description := "Create designs, wireframes or implementation plans.",
     start_date := 738001, end_date := 738001, depends_on := "Define scope & success metrics" },
   { title := "Implementation",
     description := "Develop core functionality and integrate components.",
     start_date := 738002, end_date := 738002, depends_on := "Design & plan" },
   { title := "Testing & QA",
     description := "Test features, fix bugs, and verify performance.",
     start_date := 738003, end_date := 738003, depends_on := "Implementation" }]

/-- Expected allocator output for `days = 14`, `now = 738000` (6 phases,
2 days each); used by concrete witnesses. -/
def wAlloc14 : List Task :=
  [{ title := "Define scope & success metrics",
     description := "Clarify goal, success metrics, target audience, and constraints.",
     start_date := 738000, end_date := 738001, depends_on := "" },
   { title := "Design & plan",
     description := "Create designs, wireframes or implementation plans.",
     start_date := 738002, end_date := 738003, depends_on := "Define scope & success metrics" },
   { title := "Implementation",
     description := "Develop core functionality and integrate components.",
     start_date := 738004, end_date := 738005, depends_on := "Design & plan" },
   { title := "Testing & QA",
     description := "Test features, fix bugs, and verify performance.",
     start_date := 738006, end_date := 738007, depends_on := "Implementation" },
   { title := "Deployment & Launch",
     description := "Deploy to production and run launch checklist.",
     start_date := 738008, end_date := 738009, depends_on := "Testing & QA" },
   { title := "Post-launch monitoring",
     description := "Monitor usage, collect feedback, and iterate.",
     start_date := 738010, end_date := 738011, depends_on := "Deployment & Launch" }]

/-- The augmented task for `per_task_days = 1`, `now = 738000`. -/
def wMkTask3 : Task :=
  { title := "Marketing prep", description := marketingDesc,
    start_date := 738001, end_date := 738002,
    depends_on := "Define scope & success metrics" }

/-- Pipeline output for `"product marketing in 3 days"`, `now = 738000`:
the 4 allocator tasks with `"Marketing prep"` inserted before the last. -/
def wMk3Plan : List Task :=
  [wAlloc3.getD 0 defTask, wAlloc3.getD 1 defTask, wAlloc3.getD 2 defTask,
   wMkTask3, wAlloc3.getD 3 defTask]

/-- Pipeline output for `"Write a book"`, `now = 738000`: fallback 30 days,
6 phases, 5 days each. -/
def wBookPlan : List Task :=
  [{ title := "Define scope & success metrics",
     description := "Clarify goal, success metrics, target audience, and constraints.",
     start_date := 738000, end_date := 738004, depends_on := "" },
   { title := "Design & plan",
     description := "Create designs, wireframes or implementation plans.",
     start_date := 738005, end_date := 738009, depends_on := "Define scope & success metrics" },
   { title := "Implementation",
     description := "Develop core functionality and integrate components.",
     start_date := 738010, end_date := 738014, depends_on := "Design & plan" },
   { title := "Testing & QA",
     description := "Test features, fix bugs, and verify performance.",
     start_date := 738015, end_date := 738019, depends_on := "Implementation" },
   { title := "Deployment & Launch",
     description := "Deploy to production and run launch checklist.",
     start_date := 738020, end_date := 738024, depends_on := "Testing & QA" },
   { title := "Post-launch monitoring",
     description := "Monitor usage, collect feedback, and iterate.",
     start_date := 738025, end_date := 738029, depends_on := "Deployment & Launch" }]

/-- Pipeline output for the spec's Scenario D goal
`"Launch a product and marketing campaign in 2 weeks"`, `now = 738000`:
the 6 allocator tasks (2 days each) with `"Marketing prep"` inserted
before the last. -/
def wScenDPlan : List Task :=
  [wAlloc14.getD 0 defTask, wAlloc14.getD 1 defTask, wAlloc14.getD 2 defTask,
   wAlloc14.getD 3 defTask, wAlloc14.getD 4 defTask,
   { title := "Marketing prep", description := marketingDesc,
     start_date := 738002, end_date := 738004,
     depends_on := "Define scope & success metrics" },
   wAlloc14.getD 5 defTask]

/-! ## Helper lemmas -/

theorem addDays_eq_some {now d x : Nat} :
    addDays now d = some x ↔ d ≤ maxDeltaDays ∧ now + d ≤ maxOrdinal ∧ x = now + d := by
  unfold addDays
  split <;> rename_i h
  · constructor
    · intro hx
      injection hx with hx
      exact ⟨h.1, h.2, hx.symm⟩
    · rintro ⟨-, -, rfl⟩
      rfl
  · constructor
    · intro hx
      cases hx
    · rintro ⟨h1, h2, -⟩
      exact absurd ⟨h1, h2⟩ h

theorem allocLoop_getD (l : List (String × String)) :
    ∀ (k : Nat) (dep : String) (ts : List Task) (per now : Nat),
      allocLoop per now l (k + 1) dep = some ts →
      ts.length = l.length ∧
      ∀ j, j < l.length →
        ts.getD j defTask =
          { title := (l.getD j ("", "")).1,
            description := (l.getD j ("", "")).2,
            start_date := now + (k + j) * per,
            end_date := now + ((k + 1 + j) * per - 1),
            depends_on := if j = 0 then dep else (l.getD (j - 1) ("", "")).1 } ∧
        (k + 1 + j) * per - 1 ≤ maxDeltaDays ∧ now + ((k + 1 + j) * per - 1) ≤ maxOrdinal := by
  induction l with
  | nil =>
    intro k dep ts per now h
    simp only [allocLoop] at h
    injection h with h
    subst h
    simp
  | cons hd rest ih =>
    intro k dep ts per now h
    obtain ⟨t, d⟩ := hd
    simp only [allocLoop, Option.bind_eq_some] at h
    obtain ⟨s, hs, e, he, ts', hrec, h⟩ := h
    injection h with h
    subst h
    obtain ⟨ihlen, ihget⟩ := ih (k + 1) t ts' per now hrec
    rw [addDays_eq_some] at hs he
    constructor
    · simp [ihlen]
    · intro j hj
      match j with
      | 0 =>
        refine ⟨?_, ?_, ?_⟩
        · simp only [List.getD_cons_zero]
          have hs' : s = now + k * per := by
            have hk1 : k + 1 - 1 = k := by omega
            rw [hk1] at hs
            exact hs.2.2
          have he' : e = now + ((k + 1) * per - 1) := he.2.2
          simp [hs', he']
        · simpa using he.1
        · simpa using he.2.1
      | j' + 1 =>
        have hj' : j' < rest.length := by
          simpa using Nat.lt_of_succ_lt_succ hj
        obtain ⟨g1, g2, g3⟩ := ihget j' hj'
        have e1 : k + 1 + j' = k + (j' + 1) := by omega
        have e2 : k + 1 + 1 + j' = k + 1 + (j' + 1) := by omega
        refine ⟨?_, ?_, ?_⟩
        · simp only [List.getD_cons_succ]
          rw [g1]
          simp only [Task.mk.injEq, e1, e2, true_and, and_true]
          match j' with
          | 0 => simp
          | _ + 1 => simp
        · rw [e2] at g2
          exact g2
        · rw [e2] at g3
          exact g3

theorem allocLoop_titles (l : List (String × String)) :
    ∀ (i : Nat) (dep : String) (ts : List Task) (per now : Nat),
      allocLoop per now l i dep = some ts → ts.map Task.title = l.map Prod.fst := by
  induction l with
  | nil =>
    intro i dep ts per now h
    simp only [allocLoop] at h
    injection h with h
    subst h
    rfl
  | cons hd rest ih =>
    intro i dep ts per now h
    obtain ⟨t, d⟩ := hd
    simp only [allocLoop, Option.bind_eq_some] at h
    obtain ⟨s, hs, e, he, ts', hrec, h⟩ := h
    injection h with h
    subst h
    simp [ih (i + 1) t ts' per now hrec]

theorem allocLoop_some (l : List (String × String)) :
    ∀ (k : Nat) (dep : String) (per now : Nat), 1 ≤ per →
      (∀ j, j < l.length →
        (k + 1 + j) * per ≤ maxDeltaDays + 1 ∧ now + (k + 1 + j) * per ≤ maxOrdinal + 1) →
      ∃ ts, allocLoop per now l (k + 1) dep = some ts ∧ ts.length = l.length := by
  induction l with
  | nil =>
    intro k dep per now _ _
    exact ⟨[], rfl, rfl⟩
  | cons hd rest ih =>
    intro k dep per now hper hbound
    obtain ⟨t, d⟩ := hd
    have h0 := hbound 0 (by simp)
    simp only [Nat.add_zero] at h0
    have hkk : (k + 1) * per = k * per + per := by ring
    have hs : addDays now ((k + 1 - 1) * per) = some (now + k * per) := by
      have hk1 : k + 1 - 1 = k := by omega
      rw [hk1, addDays_eq_some]
      refine ⟨by omega, by omega, rfl⟩
    have he : addDays now ((k + 1) * per - 1) = some (now + ((k + 1) * per - 1)) := by
      rw [addDays_eq_some]
      refine ⟨by omega, by omega, rfl⟩
    obtain ⟨ts', hts', hlen⟩ := ih (k + 1) t per now hper (by
      intro j hj
      have hb := hbound (j + 1) (by simpa using Nat.succ_lt_succ hj)
      have e2 : k + 1 + (j + 1) = k + 1 + 1 + j := by omega
      rw [e2] at hb
      exact hb)
    refine ⟨{ title := t, description := d, start_date := now + k * per,
              end_date := now + ((k + 1) * per - 1), depends_on := dep } :: ts', ?_, ?_⟩
    · simp only [allocLoop, hs, he, hts', Option.some_bind]
    · simp [hlen]

theorem insertAt_length (n : Nat) (x : Task) (l : List Task) :
    (insertAt n x l).length = l.length + 1 := by
  induction l generalizing n with
  | nil =>
    match n with
    | 0 => rfl
    | _ + 1 => rfl
  | cons a l ih =>
    match n with
    | 0 => rfl
    | m + 1 => simp [insertAt, ih]

theorem insertAt_mem (n : Nat) (x y : Task) (l : List Task) :
    y ∈ insertAt n x l ↔ y = x ∨ y ∈ l := by
  induction l generalizing n with
  | nil =>
    match n with
    | 0 => simp [insertAt]
    | _ + 1 => simp [insertAt]
  | cons a l ih =>
    match n with
    | 0 => simp [insertAt]
    | m + 1 =>
      simp only [insertAt, List.mem_cons, ih]
      tauto

theorem insertAt_getD (n : Nat) (x : Task) (l : List Task) (hn : n ≤ l.length) :
    ∀ j, (insertAt n x l).getD j defTask =
      if j < n then l.getD j defTask
      else if j = n then x
      else l.getD (j - 1) defTask := by
  induction l generalizing n with
  | nil =>
    intro j
    have hn0 : n = 0 := by simpa using hn
    subst hn0
    match j with
    | 0 => simp [insertAt]
    | _ + 1 => simp [insertAt]
  | cons a l ih =>
    intro j
    match n with
    | 0 =>
      match j with
      | 0 => simp [insertAt]
      | _ + 1 => simp [insertAt]
    | m + 1 =>
      match j with
      | 0 => simp [insertAt]
      | j' + 1 =>
        simp only [insertAt, List.getD_cons_succ]
        rw [ih m (by simpa using hn) j']
        by_cases h1 : j' < m
        · simp [h1, Nat.succ_lt_succ h1]
        · by_cases h2 : j' = m
          · simp [h1, h2]
          · have : ¬ j' + 1 < m + 1 := by omega
            have : ¬ j' + 1 = m + 1 := by omega
            simp only [if_neg h1, if_neg h2, if_neg ‹¬ j' + 1 < m + 1›, if_neg ‹¬ j' + 1 = m + 1›]
            match j' with
            | j'' + 1 => simp
            | 0 => omega

theorem headD_eq_getD (l : List (String × String)) (d : String × String) :
    l.headD d = l.getD 0 d := by
  cases l <;> rfl

theorem parse_eq_some {goal : String} {now days dl : Nat}
    (h : parse_goal_duration goal now = some (days, dl)) :
    days ≤ maxDeltaDays ∧ now + days ≤ maxOrdinal ∧ dl = now + days := by
  unfold parse_goal_duration at h
  simp only [] at h
  cases hsd : searchDuration (lowerStr goal) with
  | some p =>
    obtain ⟨num, unit⟩ := p
    rw [hsd] at h
    simp only [Option.map_eq_some'] at h
    obtain ⟨dl', hdl, h⟩ := h
    injection h with h1 h2
    rw [addDays_eq_some] at hdl
    subst h1
    subst h2
    exact ⟨hdl.1, hdl.2.1, hdl.2.2⟩
  | none =>
    rw [hsd] at h
    simp only [Option.map_eq_some'] at h
    obtain ⟨dl', hdl, h⟩ := h
    injection h with h1 h2
    rw [addDays_eq_some] at hdl
    subst h1
    subst h2
    exact ⟨hdl.1, hdl.2.1, hdl.2.2⟩

theorem firstAlt_mem {l u : List Char} (h : firstAlt l = some u) :
    u = "day".toList ∨ u = "days".toList ∨ u = "week".toList ∨
    u = "weeks".toList ∨ u = "month".toList ∨ u = "months".toList := by
  unfold firstAlt at h
  split_ifs at h <;> (injection h with h; subst h; tauto)

theorem matchAt_unit {l : List Char} {n : Nat} {u : List Char}
    (h : matchAt l = some (n, u)) : ∃ l', firstAlt l' = some u := by
  unfold matchAt at h
  simp only [] at h
  split_ifs at h
  cases hf : firstAlt ((l.drop (l.takeWhile isDig).length).dropWhile isWs) with
    | some u' =>
      rw [hf] at h
      injection h with h
      injection h with h1 h2
      subst h2
      exact ⟨_, hf⟩
    | none =>
      rw [hf] at h
      cases h

theorem searchDuration_unit {l : List Char} :
    ∀ {n : Nat} {u : List Char}, searchDuration l = some (n, u) →
      u = "day".toList ∨ u = "days".toList ∨ u = "week".toList ∨
      u = "weeks".toList ∨ u = "month".toList ∨ u = "months".toList := by
  induction l with
  | nil =>
    intro n u h
    cases h
  | cons c rest ih =>
    intro n u h
    simp only [searchDuration] at h
    cases hm : matchAt (c :: rest) with
    | some r =>
      rw [hm] at h
      injection h with h
      subst h
      obtain ⟨l', hf⟩ := matchAt_unit hm
      exact firstAlt_mem hf
    | none =>
      rw [hm] at h
      exact ih h

theorem mock_cases {goal : String} {now : Nat} {ts : List Task}
    (h : mock_llm_reasoning goal now = some ts) :
    ∃ days dl base,
      parse_goal_duration goal now = some (days, dl) ∧
      allocLoop (per_task_days days (chosenPhases days).length) now
        (chosenPhases days) 1 "" = some base ∧
      ((trigger goal = true ∧
        per_task_days days (chosenPhases days).length * 2 ≤ maxDeltaDays ∧
        now + per_task_days days (chosenPhases days).length * 2 ≤ maxOrdinal ∧
        ts = insertAt (base.length - 1)
          { title := "Marketing prep", description := marketingDesc,
            start_date := now + per_task_days days (chosenPhases days).length,
            end_date := now + per_task_days days (chosenPhases days).length * 2,
            depends_on := ((chosenPhases days).headD ("", "")).1 } base) ∨
       (trigger goal = false ∧ ts = base)) := by
  simp only [mock_llm_reasoning, Option.bind_eq_some] at h
  obtain ⟨⟨days, dl⟩, hp, h⟩ := h
  simp only at h
  obtain ⟨base, hb, h⟩ := h
  refine ⟨days, dl, base, hp, hb, ?_⟩
  cases htr : trigger goal with
  | true =>
    rw [htr] at h
    simp only [if_pos, Option.bind_eq_some] at h
    obtain ⟨ms, hms, me, hme, h⟩ := h
    rw [addDays_eq_some] at hms hme
    injection h with h
    left
    refine ⟨rfl, hme.1, hme.2.1, ?_⟩
    rw [← h, hms.2.2, hme.2.2]
  | false =>
    rw [htr] at h
    simp only [if_neg, Bool.false_eq_true, reduceIte] at h
    injection h with h
    right
    exact ⟨rfl, h.symm⟩

theorem mock_unfold {goal : String} {now days dl : Nat} {base : List Task}
    (hp : parse_goal_duration goal now = some (days, dl))
    (hb : allocLoop (per_task_days days (chosenPhases days).length) now
      (chosenPhases days) 1 "" = some base) :
    mock_llm_reasoning goal now =
      if trigger goal then
        (addDays now (per_task_days days (chosenPhases days).length)).bind fun ms =>
          (addDays now (per_task_days days (chosenPhases days).length * 2)).bind fun me =>
            some (insertAt (base.length - 1)
              { title := "Marketing prep", description := marketingDesc,
                start_date := ms, end_date := me,
                depends_on := ((chosenPhases days).headD ("", "")).1 } base)
      else some base := by
  simp only [mock_llm_reasoning, hp, Option.some_bind]
  simp only [hb, Option.some_bind]

theorem chosen_length (days : Nat) :
    (10 ≤ days → (chosenPhases days).length = 6) ∧
    (days < 10 → (chosenPhases days).length = 4) := by
  unfold chosenPhases
  by_cases h : 10 ≤ days
  · rw [if_pos h]
    exact ⟨fun _ => by decide, fun h' => absurd h (by omega)⟩
  · rw [if_neg h]
    exact ⟨fun h' => absurd h' h, fun _ => by decide⟩

theorem chosen_width_bound {goal : String} {now days dl : Nat}
    (hp : parse_goal_duration goal now = some (days, dl))
    (hroom : now + 29 ≤ maxOrdinal) :
    (chosenPhases days).length * per_task_days days (chosenPhases days).length ≤ maxDeltaDays ∧
    now + (chosenPhases days).length * per_task_days days (chosenPhases days).length ≤ maxOrdinal := by
  obtain ⟨hdays, hnow, -⟩ := parse_eq_some hp
  by_cases h10 : 10 ≤ days
  · have h6 : (chosenPhases days).length = 6 := (chosen_length days).1 h10
    have hmax : per_task_days days (chosenPhases days).length = days / 6 := by
      rw [h6]
      unfold per_task_days
      exact Nat.max_eq_right (by omega)
    rw [hmax, h6]
    omega
  · have h4 : (chosenPhases days).length = 4 := (chosen_length days).2 (by omega)
    rw [h4]
    have hsmall : per_task_days days 4 ≤ 2 := by
      unfold per_task_days
      have hd4 : days / 4 ≤ 2 := by omega
      omega
    unfold maxDeltaDays maxOrdinal at *
    omega

/-! ## The claims -/

/-- Claim C1, counterexample: the pipeline is not exception-free on every goal
string.  On `"finish in 1000000000 days"` the parsed duration exceeds
`timedelta.max.days`, so `now + timedelta(days=days)` in
`parse_goal_duration` raises `OverflowError` (modelled by `none`) and
`mock_llm_reasoning` propagates it instead of producing a task sequence. -/
theorem c1_counterexample :
    mock_llm_reasoning "finish in 1000000000 days" 738500 = none := by decide

/-- Claim C1, amended: for every goal string and reference date, *provided
the computed dates stay inside Python's `datetime` range* — the duration
parser returned, and the reference date lies at least 29 days before
`date.max` — the deterministic pipeline produces a task sequence, and that
sequence is non-empty. -/
theorem c1_pipeline_total_within_range (goal : String) (now days dl : Nat)
    (hp : parse_goal_duration goal now = some (days, dl))
    (hroom : now + 29 ≤ maxOrdinal) :
    ∃ ts, mock_llm_reasoning goal now = some ts ∧ 0 < ts.length := by
  obtain ⟨hw1, hw2⟩ := chosen_width_bound hp hroom
  have hper : 1 ≤ per_task_days days (chosenPhases days).length := le_max_left _ _
  have hlen2 : 2 ≤ (chosenPhases days).length := by
    rcases Nat.lt_or_ge days 10 with h | h
    · rw [(chosen_length days).2 h]; omega
    · rw [(chosen_length days).1 h]; omega
  obtain ⟨base, hbase, hblen⟩ :=
    allocLoop_some (chosenPhases days) 0 ""
      (per_task_days days (chosenPhases days).length) now hper (by
        intro j hj
        have hj1 : (0 + 1 + j) * per_task_days days (chosenPhases days).length ≤
            (chosenPhases days).length * per_task_days days (chosenPhases days).length :=
          Nat.mul_le_mul_right _ (by omega)
        omega)
  rw [mock_unfold hp hbase]
  by_cases htr : trigger goal = true
  · rw [if_pos htr]
    have hm1 : addDays now (per_task_days days (chosenPhases days).length) =
        some (now + per_task_days days (chosenPhases days).length) := by
      rw [addDays_eq_some]
      have : per_task_days days (chosenPhases days).length ≤
          (chosenPhases days).length * per_task_days days (chosenPhases days).length :=
        Nat.le_mul_of_pos_left _ (by omega)
      exact ⟨by omega, by omega, rfl⟩
    have hm2 : addDays now (per_task_days days (chosenPhases days).length * 2) =
        some (now + per_task_days days (chosenPhases days).length * 2) := by
      rw [addDays_eq_some]
      have : per_task_days days (chosenPhases days).length * 2 ≤
          (chosenPhases days).length * per_task_days days (chosenPhases days).length := by
        rw [Nat.mul_comm (chosenPhases days).length]
        exact Nat.mul_le_mul_left _ (by omega)
      exact ⟨by omega, by omega, rfl⟩
    rw [hm1, hm2]
    simp only [Option.some_bind]
    refine ⟨_, rfl, ?_⟩
    rw [insertAt_length]
    omega
  · rw [if_neg htr]
    refine ⟨base, rfl, ?_⟩
    omega

/-- Claim C1, witness: the amended statement at goal `"Write a book"` and
reference date 738000 (2021-06-24): the parser falls back to 30 days and
the pipeline yields a (non-empty) plan. -/
theorem c1_witness :
    parse_goal_duration "Write a book" 738000 = some (30, 738030) ∧
    738000 + 29 ≤ maxOrdinal ∧
    ∃ ts, mock_llm_reasoning "Write a book" 738000 = some ts ∧ 0 < ts.length :=
  ⟨by decide, by decide,
    c1_pipeline_total_within_range "Write a book" 738000 30 738030 (by decide) (by decide)⟩

/-- Claim C2, counterexample: `parse_goal_duration` does not return a value on
every goal string: on `"in 1000000000 days"` the first regex match gives
1000000000 days, `timedelta(days=1000000000)` exceeds `timedelta.max` and
the deadline computation raises `OverflowError` instead of returning the
matched number of days. -/
theorem c2_counterexample :
    parse_goal_duration "in 1000000000 days" 738500 = none := by decide

/-- Claim C2, amended: whenever the duration given by the spec's rule keeps
the deadline inside Python's `datetime` range, `parse_goal_duration`
returns exactly that duration — first regex match of an integer and a unit
(week ×7, month ×30, day ×1), otherwise 14 days when the lower-cased text
contains "launch", "ship" or "release" and 30 days when it does not — and
the deadline is the reference instant plus that many days. -/
theorem c2_duration_rule (goal : String) (now : Nat)
    (h1 : specDuration goal ≤ maxDeltaDays)
    (h2 : now + specDuration goal ≤ maxOrdinal) :
    parse_goal_duration goal now = some (specDuration goal, now + specDuration goal) := by
  have final : ∀ D : Nat, D ≤ maxDeltaDays → now + D ≤ maxOrdinal →
      (addDays now D).map (fun dl => (D, dl)) = some (D, now + D) := by
    intro D hD1 hD2
    rw [show addDays now D = some (now + D) from addDays_eq_some.2 ⟨hD1, hD2, rfl⟩]
    rfl
  unfold parse_goal_duration specDuration at *
  simp only [] at h1 h2 ⊢
  cases hsd : searchDuration (lowerStr goal) with
  | none =>
    rw [hsd] at h1 h2
    simp only [strHas, String.toList, Bool.or_eq_true, or_assoc] at h1 h2 ⊢
    exact final _ h1 h2
  | some p =>
    obtain ⟨num, u⟩ := p
    rw [hsd] at h1 h2
    simp only [] at h1 h2 ⊢
    have hdays : (if hasSub "week".toList u then num * 7
        else if hasSub "month".toList u then num * 30 else num) =
        (if u = "week".toList ∨ u = "weeks".toList then num * 7
        else if u = "month".toList ∨ u = "months".toList then num * 30 else num) := by
      rcases searchDuration_unit hsd with rfl | rfl | rfl | rfl | rfl | rfl <;> simp +decide
    rw [hdays]
    exact final _ h1 h2

/-- Claim C2, witness: the amended statement at `"Launch a product in 2 weeks"`
and reference date 738000: the first match is `2 weeks`, 14 days, deadline
738014. -/
theorem c2_witness :
    specDuration "Launch a product in 2 weeks" ≤ maxDeltaDays ∧
    738000 + specDuration "Launch a product in 2 weeks" ≤ maxOrdinal ∧
    parse_goal_duration "Launch a product in 2 weeks" 738000 =
      some (specDuration "Launch a product in 2 weeks",
        738000 + specDuration "Launch a product in 2 weeks") :=
  ⟨by decide, by decide, c2_duration_rule "Launch a product in 2 weeks" 738000 (by decide) (by decide)⟩

/-- Claim C6, counterexample: the duration returned by `parse_goal_duration`
is not always ≥ 1: the goal `"0 days"` matches the duration regex with
`N = 0` and the function returns a duration of 0 days. -/
theorem c6_counterexample :
    ¬ (∀ (goal : String) (now days dl : Nat),
        parse_goal_duration goal now = some (days, dl) → 1 ≤ days) := by
  intro h
  have h0 := h "0 days" 738000 0 738000 (by decide)
  omega

/-- Claim C6, amended: the duration returned by `parse_goal_duration` is at
least 1 for every goal string whose first duration match (when one exists)
carries a positive integer; only a match with `N = 0` (such as `"0 days"`)
produces a smaller duration. -/
theorem c6_duration_positive (goal : String) (now days dl : Nat)
    (h : parse_goal_duration goal now = some (days, dl))
    (hpos : ∀ n u, searchDuration (lowerStr goal) = some (n, u) → 1 ≤ n) :
    1 ≤ days := by
  unfold parse_goal_duration at h
  simp only [] at h
  cases hsd : searchDuration (lowerStr goal) with
  | some p =>
    obtain ⟨num, u⟩ := p
    rw [hsd] at h
    simp only [Option.map_eq_some'] at h
    obtain ⟨dl', -, h⟩ := h
    injection h with h1 h2
    have hn := hpos num u hsd
    subst h1
    split_ifs <;> omega
  | none =>
    rw [hsd] at h
    simp only [Option.map_eq_some'] at h
    obtain ⟨dl', -, h⟩ := h
    injection h with h1 h2
    subst h1
    split_ifs <;> omega

/-- Claim C6, witness: the amended statement at `"ship it"`: no duration
pattern, keyword fallback 14, and 1 ≤ 14. -/
theorem c6_witness :
    parse_goal_duration "ship it" 738000 = some (14, 738014) ∧ 1 ≤ 14 :=
  ⟨by decide, c6_duration_positive "ship it" 738000 14 738014 (by decide) (by
    intro n u hcontra
    rw [show searchDuration (lowerStr "ship it") = none from by decide] at hcontra
    cases hcontra)⟩

/-- Claim C9: the deterministic pipeline is a pure function of the goal text
and the reference instant — two invocations on identical goal text and the
same instant return identical task sequences, fields and order included. -/
theorem c9_deterministic (g1 g2 : String) (now : Nat) (h : g1 = g2) :
    mock_llm_reasoning g1 now = mock_llm_reasoning g2 now := by
  rw [h]

/-- Claim C9, witness: determinism at `"Launch a product in 2 weeks"`. -/
theorem c9_witness :
    ("Launch a product in 2 weeks" : String) = "Launch a product in 2 weeks" ∧
    mock_llm_reasoning "Launch a product in 2 weeks" 738000 =
      mock_llm_reasoning "Launch a product in 2 weeks" 738000 :=
  ⟨rfl, c9_deterministic "Launch a product in 2 weeks" "Launch a product in 2 weeks" 738000 rfl⟩

/-- Claim C3: the pipeline selects all 6 template phases when days ≥ 10 and
exactly the first 4 otherwise, in template order: the timeline allocator
invoked by the pipeline emits exactly one task per chosen phase, titled by
the chosen phases in order. -/
theorem c3_phase_selection (days now : Nat) (ts : List Task)
    (h : allocLoop (per_task_days days (chosenPhases days).length) now
      (chosenPhases days) 1 "" = some ts) :
    ts.map Task.title = (chosenPhases days).map Prod.fst ∧
    (10 ≤ days → chosenPhases days = phases ∧ ts.length = 6) ∧
    (days < 10 → chosenPhases days = phases.take 4 ∧ ts.length = 4) := by
  have htitles := allocLoop_titles (chosenPhases days) 1 "" ts _ now h
  obtain ⟨hlen, -⟩ := allocLoop_getD (chosenPhases days) 0 "" ts _ now h
  refine ⟨htitles, ?_, ?_⟩
  · intro h10
    have hc : chosenPhases days = phases := by
      unfold chosenPhases
      rw [if_pos h10]
    exact ⟨hc, by rw [hlen, (chosen_length days).1 h10]⟩
  · intro hlt
    have hc : chosenPhases days = phases.take 4 := by
      unfold chosenPhases
      rw [if_neg (by omega)]
    exact ⟨hc, by rw [hlen, (chosen_length days).2 hlt]⟩

/-- Claim C3, witness: the selection at `days = 3` (4 phases, spec's
Scenario C sizing) and reference date 738000. -/
theorem c3_witness :
    allocLoop (per_task_days 3 (chosenPhases 3).length) 738000 (chosenPhases 3) 1 "" =
      some wAlloc3 ∧
    (wAlloc3.map Task.title = (chosenPhases 3).map Prod.fst ∧
     (10 ≤ 3 → chosenPhases 3 = phases ∧ wAlloc3.length = 6) ∧
     (3 < 10 → chosenPhases 3 = phases.take 4 ∧ wAlloc3.length = 4)) :=
  ⟨by decide, c3_phase_selection 3 738000 wAlloc3 (by decide)⟩

/-- Claim C4: the allocator's arithmetic — `per_task_days` is
`max(1, days // len(chosen))`, the task of the i-th chosen phase (0-based
`i` here) starts at `now + i*per_task_days`, ends at
`now + (i+1)*per_task_days - 1`, and depends on nothing for the first phase
and on the title of the previous chosen phase for every later one. -/
theorem c4_timeline_allocation (days now : Nat) (ts : List Task)
    (h : allocLoop (per_task_days days (chosenPhases days).length) now
      (chosenPhases days) 1 "" = some ts) :
    per_task_days days (chosenPhases days).length =
      max 1 (days / (chosenPhases days).length) ∧
    ∀ i, i < ts.length →
      (ts.getD i defTask).start_date =
        now + i * per_task_days days (chosenPhases days).length ∧
      (ts.getD i defTask).end_date =
        now + (i + 1) * per_task_days days (chosenPhases days).length - 1 ∧
      (ts.getD i defTask).depends_on =
        (if i = 0 then "" else ((chosenPhases days).getD (i - 1) ("", "")).1) := by
  obtain ⟨hlen, hget⟩ := allocLoop_getD (chosenPhases days) 0 "" ts _ now h
  refine ⟨rfl, ?_⟩
  intro i hi
  rw [hlen] at hi
  obtain ⟨g1, -, -⟩ := hget i hi
  have hper : 1 ≤ per_task_days days (chosenPhases days).length := le_max_left _ _
  rw [g1]
  dsimp only
  refine ⟨by simp, ?_, rfl⟩
  have e1 : 0 + 1 + i = i + 1 := by omega
  rw [e1]
  have hX : 1 ≤ (i + 1) * per_task_days days (chosenPhases days).length :=
    Nat.mul_pos (by omega) hper
  omega

/-- Claim C4, witness: the allocation at `days = 14`, `now = 738000`
(6 phases, 2 days each − the spec's Scenario A sizing). -/
theorem c4_witness :
    allocLoop (per_task_days 14 (chosenPhases 14).length) 738000 (chosenPhases 14) 1 "" =
      some wAlloc14 ∧
    (per_task_days 14 (chosenPhases 14).length =
      max 1 (14 / (chosenPhases 14).length) ∧
    ∀ i, i < wAlloc14.length →
      (wAlloc14.getD i defTask).start_date =
        738000 + i * per_task_days 14 (chosenPhases 14).length ∧
      (wAlloc14.getD i defTask).end_date =
        738000 + (i + 1) * per_task_days 14 (chosenPhases 14).length - 1 ∧
      (wAlloc14.getD i defTask).depends_on =
        (if i = 0 then "" else ((chosenPhases 14).getD (i - 1) ("", "")).1)) :=
  ⟨by decide, c4_timeline_allocation 14 738000 wAlloc14 (by decide)⟩

/-- Claim C5: exactly when the lower-cased goal contains both "product" and
"marketing", one extra task titled "Marketing prep" is inserted at position
`len(tasks) - 1` (immediately before the last task), starting one
phase-width after the overall start (`now + per_task_days`), ending at
`now + 2*per_task_days`, and depending on the title of the first chosen
phase; without the trigger the output is exactly the allocator's list. -/
theorem c5_marketing_augmentation (goal : String) (now days dl : Nat) (ts : List Task)
    (hp : parse_goal_duration goal now = some (days, dl))
    (hm : mock_llm_reasoning goal now = some ts) :
    (trigger goal = true →
      ∃ base, allocLoop (per_task_days days (chosenPhases days).length) now
          (chosenPhases days) 1 "" = some base ∧
        ts = insertAt (base.length - 1)
          { title := "Marketing prep", description := marketingDesc,
            start_date := now + per_task_days days (chosenPhases days).length,
            end_date := now + per_task_days days (chosenPhases days).length * 2,
            depends_on := ((chosenPhases days).headD ("", "")).1 } base ∧
        ts.length = base.length + 1) ∧
    (trigger goal = false →
      allocLoop (per_task_days days (chosenPhases days).length) now
        (chosenPhases days) 1 "" = some ts) := by
  obtain ⟨days', dl', base, hp', hb, hcase⟩ := mock_cases hm
  rw [hp] at hp'
  injection hp' with hp'
  injection hp' with h1 h2
  subst h1
  subst h2
  rcases hcase with ⟨htr, -, -, hts⟩ | ⟨htr, hts⟩
  · refine ⟨fun _ => ⟨base, hb, hts, ?_⟩, fun hfalse => ?_⟩
    · rw [hts, insertAt_length]
    · rw [htr] at hfalse
      cases hfalse
  · refine ⟨fun htrue => ?_, fun _ => ?_⟩
    · rw [htr] at htrue
      cases htrue
    · rw [← hts] at hb
      exact hb

/-- Claim C5, witness: the augmentation at `"product marketing in 3 days"`,
reference date 738000: 4 allocator tasks, `per_task_days = 1`, and
`"Marketing prep"` (738001–738002, anchored on the first phase) inserted
at position 3. -/
theorem c5_witness :
    parse_goal_duration "product marketing in 3 days" 738000 = some (3, 738003) ∧
    mock_llm_reasoning "product marketing in 3 days" 738000 = some wMk3Plan ∧
    ((trigger "product marketing in 3 days" = true →
      ∃ base, allocLoop (per_task_days 3 (chosenPhases 3).length) 738000
          (chosenPhases 3) 1 "" = some base ∧
        wMk3Plan = insertAt (base.length - 1)
          { title := "Marketing prep", description := marketingDesc,
            start_date := 738000 + per_task_days 3 (chosenPhases 3).length,
            end_date := 738000 + per_task_days 3 (chosenPhases 3).length * 2,
            depends_on := ((chosenPhases 3).headD ("", "")).1 } base ∧
        wMk3Plan.length = base.length + 1) ∧
    (trigger "product marketing in 3 days" = false →
      allocLoop (per_task_days 3 (chosenPhases 3).length) 738000
        (chosenPhases 3) 1 "" = some wMk3Plan)) :=
  ⟨by decide, by decide,
    c5_marketing_augmentation "product marketing in 3 days" 738000 3 738003 wMk3Plan
      (by decide) (by decide)⟩

/-- Claim C7: every task produced by the pipeline — the augmented
"Marketing prep" task included — carries two representable calendar dates
(ordinals in `[1, maxOrdinal]`, each of which serializes to a valid
ISO-8601 date) with `end_date ≥ start_date`. -/
theorem c7_valid_dates (goal : String) (now : Nat) (ts : List Task)
    (hvalid : 1 ≤ now)
    (hm : mock_llm_reasoning goal now = some ts) :
    ∀ t ∈ ts, 1 ≤ t.start_date ∧ t.start_date ≤ t.end_date ∧ t.end_date ≤ maxOrdinal := by
  obtain ⟨days, dl, base, hp, hb, hcase⟩ := mock_cases hm
  have hper : 1 ≤ per_task_days days (chosenPhases days).length := le_max_left _ _
  obtain ⟨hlen, hget⟩ := allocLoop_getD (chosenPhases days) 0 "" base _ now hb
  have hbase : ∀ t ∈ base, 1 ≤ t.start_date ∧ t.start_date ≤ t.end_date ∧
      t.end_date ≤ maxOrdinal := by
    intro t ht
    obtain ⟨j, hj, hjt⟩ := List.getElem_of_mem ht
    have hj' : j < (chosenPhases days).length := by omega
    obtain ⟨g1, -, g3⟩ := hget j hj'
    rw [List.getD_eq_getElem base defTask hj, hjt] at g1
    rw [g1]
    dsimp only
    have hsplit : (0 + 1 + j) * per_task_days days (chosenPhases days).length =
        (0 + j) * per_task_days days (chosenPhases days).length +
          per_task_days days (chosenPhases days).length := by
      ring
    omega
  rcases hcase with ⟨-, -, hme, hts⟩ | ⟨-, hts⟩
  · intro t ht
    rw [hts] at ht
    rcases (insertAt_mem _ _ t base).1 ht with rfl | hmem
    · dsimp only
      omega
    · exact hbase t hmem
  · intro t ht
    rw [hts] at ht
    exact hbase t ht

/-- Claim C7, witness: the date invariant at `"Write a book"`, reference date
738000: 6 tasks of 5 days each, all with `start ≤ end` inside the
representable range. -/
theorem c7_witness :
    1 ≤ 738000 ∧
    mock_llm_reasoning "Write a book" 738000 = some wBookPlan ∧
    (∀ t ∈ wBookPlan, 1 ≤ t.start_date ∧ t.start_date ≤ t.end_date ∧
      t.end_date ≤ maxOrdinal) :=
  ⟨by decide, by decide,
    c7_valid_dates "Write a book" 738000 wBookPlan (by decide) (by decide)⟩

/-- Claim C8, code bug: `generate_plan` performs no shape validation on a
JSON-parsing external reply.  With the external path engaged and the reply
`"\x7b\x7d"` — valid JSON, but an empty object rather than the expected
array of five-key task objects — the function returns the parsed JSON
value itself as the plan, instead of (as the claim and the code's own
`# ensure keys exist` comment require) the deterministic pipeline output
annotated with an `llm_note` field. -/
theorem c8_code_eval :
    generate_plan "Launch a product" true true (some "\x7b\x7d") 738000 =
      some (PlanOutput.fromJson (Json.obj [])) := rfl

/-- Claim C10: every task whose `depends_on` is non-empty names the title of
a task occurring strictly earlier in the returned sequence, including when
the "Marketing prep" task is inserted (its anchor, the first phase's
title, is the first task of the list). -/
theorem c10_dependency_order (goal : String) (now : Nat) (ts : List Task)
    (hm : mock_llm_reasoning goal now = some ts) :
    ∀ j, j < ts.length → (ts.getD j defTask).depends_on ≠ "" →
      ∃ k, k < j ∧ (ts.getD k defTask).title = (ts.getD j defTask).depends_on := by
  obtain ⟨days, dl, base, hp, hb, hcase⟩ := mock_cases hm
  obtain ⟨hlen, hget⟩ := allocLoop_getD (chosenPhases days) 0 "" base _ now hb
  have hn2 : 2 ≤ (chosenPhases days).length := by
    rcases Nat.lt_or_ge days 10 with h | h
    · rw [(chosen_length days).2 h]; omega
    · rw [(chosen_length days).1 h]; omega
  have htitle : ∀ j, j < (chosenPhases days).length →
      (base.getD j defTask).title = ((chosenPhases days).getD j ("", "")).1 := by
    intro j hj
    rw [(hget j hj).1]
  have hdep : ∀ j, j < (chosenPhases days).length →
      (base.getD j defTask).depends_on =
        if j = 0 then "" else ((chosenPhases days).getD (j - 1) ("", "")).1 := by
    intro j hj
    rw [(hget j hj).1]
  rcases hcase with ⟨-, -, -, hts⟩ | ⟨-, hts⟩
  · -- trigger: ts = insertAt (base.length - 1) mk base
    have hmem : ∀ j, ts.getD j defTask =
        if j < base.length - 1 then base.getD j defTask
        else if j = base.length - 1 then
          { title := "Marketing prep", description := marketingDesc,
            start_date := now + per_task_days days (chosenPhases days).length,
            end_date := now + per_task_days days (chosenPhases days).length * 2,
            depends_on := ((chosenPhases days).headD ("", "")).1 }
        else base.getD (j - 1) defTask := by
      intro j
      rw [hts]
      exact insertAt_getD (base.length - 1) _ base (by omega) j
    have htslen : ts.length = base.length + 1 := by
      rw [hts, insertAt_length]
    intro j hj hdepne
    rcases Nat.lt_trichotomy j (base.length - 1) with hcase1 | hcase1 | hcase1
    · -- an untouched allocator task before the insertion point
      have hjb : j < (chosenPhases days).length := by omega
      have hj_eq : ts.getD j defTask = base.getD j defTask := by
        rw [hmem j, if_pos hcase1]
      have hj0 : j ≠ 0 := by
        intro h0
        apply hdepne
        rw [hj_eq, hdep j hjb, if_pos h0]
      refine ⟨j - 1, by omega, ?_⟩
      have hk_eq : ts.getD (j - 1) defTask = base.getD (j - 1) defTask := by
        rw [hmem (j - 1), if_pos (by omega)]
      rw [hj_eq, hk_eq, hdep j hjb, if_neg hj0, htitle (j - 1) (by omega)]
    · -- the inserted "Marketing prep" task
      have hj_eq : ts.getD j defTask =
          { title := "Marketing prep", description := marketingDesc,
            start_date := now + per_task_days days (chosenPhases days).length,
            end_date := now + per_task_days days (chosenPhases days).length * 2,
            depends_on := ((chosenPhases days).headD ("", "")).1 } := by
        rw [hmem j, if_neg (by omega), if_pos hcase1]
      refine ⟨0, by omega, ?_⟩
      have hk_eq : ts.getD 0 defTask = base.getD 0 defTask := by
        rw [hmem 0, if_pos (by omega)]
      rw [hj_eq, hk_eq, htitle 0 (by omega)]
      dsimp only
      rw [headD_eq_getD]
    · -- the last allocator task, shifted one position right
      have hjN : j = base.length := by omega
      have hj_eq : ts.getD j defTask = base.getD (base.length - 1) defTask := by
        rw [hmem j, if_neg (by omega), if_neg (by omega), hjN]
      have hlast : base.length - 1 < (chosenPhases days).length := by omega
      have hne0 : base.length - 1 ≠ 0 := by omega
      refine ⟨base.length - 2, by omega, ?_⟩
      have hk_eq : ts.getD (base.length - 2) defTask =
          base.getD (base.length - 2) defTask := by
        rw [hmem (base.length - 2), if_pos (by omega)]
      rw [hj_eq, hk_eq, hdep (base.length - 1) hlast, if_neg hne0,
        htitle (base.length - 2) (by omega)]
      have e1 : base.length - 1 - 1 = base.length - 2 := by omega
      rw [e1]
  · -- no trigger: ts is exactly the allocator output
    intro j hj hdepne
    rw [hts] at hj hdepne ⊢
    have hjb : j < (chosenPhases days).length := by omega
    have hj0 : j ≠ 0 := by
      intro h0
      apply hdepne
      rw [hdep j hjb, if_pos h0]
    refine ⟨j - 1, by omega, ?_⟩
    rw [hdep j hjb, if_neg hj0, htitle (j - 1) (by omega)]

/-- Claim C10, witness: the dependency ordering at the spec's Scenario D
goal: the shifted last task (position 6) depends on
"Deployment & Launch", the title of the task at position 4. -/
theorem c10_witness :
    mock_llm_reasoning "Launch a product and marketing campaign in 2 weeks" 738000 =
      some wScenDPlan ∧
    6 < wScenDPlan.length ∧
    (wScenDPlan.getD 6 defTask).depends_on ≠ "" ∧
    ∃ k, k < 6 ∧ (wScenDPlan.getD k defTask).title = (wScenDPlan.getD 6 defTask).depends_on :=
  ⟨by decide, by decide, by decide,
    c10_dependency_order "Launch a product and marketing campaign in 2 weeks" 738000
      wScenDPlan (by decide) 6 (by decide) (by decide)⟩

end TaskPlanner
